import Mathlib

/-!
Verification of the indicator and signal-lifecycle code of the
vercel-telegram-sender repository (api/send-message.js, api/verify-signal.js
and their unnamed near-duplicate variants).  Prices are modelled as
rationals; a JS value that may be NaN, Infinity or undefined is modelled as
`Option ℚ` with `none` standing for the non-numeric cases.
-/

namespace VTS

/-- JS `Array.prototype.slice(a, b)` on a list (for 0 ≤ a ≤ b ≤ length,
which is how every call site uses it). -/
def jsSlice {α : Type} (l : List α) (a b : ℕ) : List α :=
  (l.drop a).take (b - a)

/-- The `sma` helper of api/send-message.js: for each i from period-1 to
length-1 it pushes the mean of `values.slice(i - period + 1, i + 1)`.
Re-indexed by j = i - (period - 1), entry j is the mean of the right-aligned
window `values.slice(j, j + period)`. -/
def sma (values : List ℚ) (period : ℕ) : List ℚ :=
  (List.range (values.length + 1 - period)).map
    (fun j => (jsSlice values j (j + period)).sum / period)

/-- JS `Math.max(...chunk)` for a non-empty chunk `x :: xs`. -/
def foldMax (x : ℚ) (xs : List ℚ) : ℚ := xs.foldl max x

/-- JS `Math.min(...chunk)` for a non-empty chunk `x :: xs`. -/
def foldMin (x : ℚ) (xs : List ℚ) : ℚ := xs.foldl min x

/-- The `stoch` helper of api/send-message.js: for each window it computes
`((close[i] - lowestLow) / (highestHigh - lowestLow)) * 100` with
`highestHigh = Math.max(...high.slice(i-period+1, i+1))` and
`lowestLow = Math.min(...low.slice(i-period+1, i+1))`.  The JS code has no
zero-denominator guard: when `highestHigh - lowestLow` is zero the division
produces NaN or ±Infinity, modelled here as `none`; an empty window would
give `Math.max(...[]) = -Infinity` and hence a non-numeric result as well.
`calculateStochastic` of the part_002 variant computes the same raw values
(and likewise has no zero-denominator guard). -/
def stoch (close high low : List ℚ) (period : ℕ) : List (Option ℚ) :=
  (List.range (close.length + 1 - period)).map (fun j =>
    match jsSlice high j (j + period), jsSlice low j (j + period) with
    | h0 :: hrest, l0 :: lrest =>
      let highestHigh := foldMax h0 hrest
      let lowestLow := foldMin l0 lrest
      if highestHigh - lowestLow = 0 then none
      else some ((close.getD (j + period - 1) 0 - lowestLow)
                  / (highestHigh - lowestLow) * 100)
    | _, _ => none)

/-- The `ema` helper of api/send-message.js: `result = [values[0]]`, then
`result.push(values[i] * k + result[i-1] * (1 - k))` for i = 1.. with
`k = 2/(period+1)`.  On the empty list the JS code would produce a single
undefined entry; the model returns `[]` (every claim is about non-empty
input). -/
def ema (values : List ℚ) (period : ℕ) : List ℚ :=
  match values with
  | [] => []
  | v :: rest =>
    List.scanl
      (fun prev x => x * (2 / ((period : ℚ) + 1)) + prev * (1 - 2 / ((period : ℚ) + 1)))
      v rest

/-- `calculateEMA` of the part_002 helper file: identical recurrence to
`ema`, but it first returns `[]` when `data.length < period`. -/
def calculateEMA (data : List ℚ) (period : ℕ) : List ℚ :=
  if data.length < period then [] else ema data period

/-- `calculateSMA` of the part_002 helper file: returns `[]` when
`data.length < period`; otherwise computes the same right-aligned window
means as `sma` (its loop is textually the same) and left-pads the output
with `period - 1` nulls (`none`) "to match original data length for easier
indexing". -/
def calculateSMA (data : List ℚ) (period : ℕ) : List (Option ℚ) :=
  if data.length < period then []
  else
    let smaArray := (List.range (data.length + 1 - period)).map
      (fun j => (jsSlice data j (j + period)).sum / period)
    List.replicate (period - 1) (none : Option ℚ) ++ smaArray.map some

/-- JS `<` on possibly-NaN/undefined values: any comparison involving a
non-number is false. -/
def jsLt (a b : Option ℚ) : Bool :=
  match a, b with
  | some x, some y => decide (x < y)
  | _, _ => false

/-- JS `>` on possibly-NaN/undefined values: any comparison involving a
non-number is false. -/
def jsGt (a b : Option ℚ) : Bool :=
  match a, b with
  | some x, some y => decide (y < x)
  | _, _ => false

/-- JS `reduce((a, b) => a + b, 0)` over possibly-NaN values: a NaN summand
poisons the sum. -/
def optSum (l : List (Option ℚ)) : Option ℚ :=
  l.foldr (fun x acc =>
    match x, acc with
    | some a, some b => some (a + b)
    | _, _ => none) (some 0)

/-- The `sma` helper applied to a possibly-NaN series (as the handler does to
the raw stochastic values): a NaN inside a window makes that window's mean
NaN. -/
def smaOpt (values : List (Option ℚ)) (period : ℕ) : List (Option ℚ) :=
  (List.range (values.length + 1 - period)).map
    (fun j => (optSum (jsSlice values j (j + period))).map (fun s => s / period))

/-- JS `arr[arr.length - 1]` on a possibly-NaN series: undefined on the empty
array, otherwise the last entry (itself possibly NaN). -/
def lastO (l : List (Option ℚ)) : Option ℚ := l.getLast?.join

/-- The indicator values the send-message handler derives from the price
series before evaluating the strategy conditions (lines 85-94 of
api/send-message.js). -/
structure IndicatorState where
  currentClose : Option ℚ
  currentOpen : Option ℚ
  currentK : Option ℚ
  currentD : Option ℚ
  hl2 : Option ℚ
  lowEmaLast : Option ℚ
  highEmaLast : Option ℚ
  ema21Last : Option ℚ

/-- Computation of the indicator state from the (oldest-first) projections of
the price series: `stoch(closes, highs, lows, 14)`, `k = sma(stoch, 1)`,
`d = sma(k, 3)`, `ema(highs, 4)`, `ema(lows, 4)`, `hl2` their midpoint, and
`ema(closes, 21)`. -/
def indicatorState (opens highs lows closes : List ℚ) : IndicatorState :=
  let stochValues := stoch closes highs lows 14
  let k := smaOpt stochValues 1
  let d := smaOpt k 3
  let highEma := ema highs 4
  let lowEma := ema lows 4
  let ema21 := ema closes 21
  { currentClose := closes.getLast?
    currentOpen := opens.getLast?
    currentK := lastO k
    currentD := lastO d
    hl2 :=
      match highEma.getLast?, lowEma.getLast? with
      | some a, some b => some ((a + b) / 2)
      | _, _ => none
    lowEmaLast := lowEma.getLast?
    highEmaLast := highEma.getLast?
    ema21Last := ema21.getLast? }

/-- `buyCondition` of api/send-message.js line 96: close below the low EMA,
open below the channel midpoint, close below the 21-EMA, and both stochastic
lines below 50. -/
def buyCondition (s : IndicatorState) : Bool :=
  jsLt s.currentClose s.lowEmaLast && jsLt s.currentOpen s.hl2
    && jsLt s.currentClose s.ema21Last && jsLt s.currentD (some 50)
    && jsLt s.currentK (some 50)

/-- `sellCondition` of api/send-message.js line 97: the mirrored comparisons
with `>`. -/
def sellCondition (s : IndicatorState) : Bool :=
  jsGt s.currentClose s.highEmaLast && jsGt s.currentOpen s.hl2
    && jsGt s.currentClose s.ema21Last && jsGt s.currentD (some 50)
    && jsGt s.currentK (some 50)

/-- One OHLC bar of the provider response (string fields already parsed to
numbers). -/
structure Bar where
  open_ : ℚ
  high : ℚ
  low : ℚ
  close : ℚ

/-- Outcome of the send-message handler, restricted to what the claims are
about: an HTTP error response, or a 200 response carrying the computed
signal. -/
inductive Response where
  | errorResponse : ℕ → String → Response
  | successResponse : String → Response
deriving DecidableEq

/-- The data-dependent part of the send-message handler (api/send-message.js
lines 42-115): if fewer than 21 bars arrived it returns a 400 error response
and never evaluates the strategy; otherwise it reverses the provider's
newest-first bars to oldest-first, projects the OHLC columns, computes the
indicator state and emits the signal.  The source sets `signal = "HOLD"`,
then overrides it with `"BUY"` if `buyCondition` and finally with `"SELL"`
if `sellCondition` (two sequential ifs, transcribed as nested ifs with the
sell check outermost). -/
def handleSendMessage (values : List Bar) : Response :=
  if values.length < 21 then
    Response.errorResponse 400 "Not enough time series data to calculate indicators."
  else
    let vs := values.reverse
    let s := indicatorState (vs.map Bar.open_) (vs.map Bar.high)
      (vs.map Bar.low) (vs.map Bar.close)
    Response.successResponse
      (if sellCondition s then "SELL" else if buyCondition s then "BUY" else "HOLD")

/-- Result determination of the part_010 verifier (`run`, step 4):
`pnl = closePrice - entryPrice` when the signal is BUY, otherwise
`entryPrice - closePrice`. -/
def runPnl (signal : String) (entryPrice closePrice : ℚ) : ℚ :=
  if signal = "BUY" then closePrice - entryPrice else entryPrice - closePrice

/-- Result determination of the part_010 verifier, continued:
`WIN` when `pnl > 0`, else `LOSS`. -/
def runResult (signal : String) (entryPrice closePrice : ℚ) : String :=
  if 0 < runPnl signal entryPrice closePrice then "WIN" else "LOSS"

/-- Result determination of api/verify-signal.js (lines 87-110): `result`
starts as "NEUTRAL"; a BUY becomes WIN/LOSS on a strict price
increase/decrease, a SELL the mirror; any other signal kind, and a tie
(`currentPrice == entryPrice`), leave "NEUTRAL". -/
def vsResult (signal : String) (entryPrice currentPrice : ℚ) : String :=
  if signal = "BUY" then
    if entryPrice < currentPrice then "WIN"
    else if currentPrice < entryPrice then "LOSS"
    else "NEUTRAL"
  else if signal = "SELL" then
    if currentPrice < entryPrice then "WIN"
    else if entryPrice < currentPrice then "LOSS"
    else "NEUTRAL"
  else "NEUTRAL"

/-- `profitLoss` of api/verify-signal.js: `currentPrice - price` for BUY,
`price - currentPrice` for SELL, and its initial value 0 otherwise. -/
def vsProfitLoss (signal : String) (entryPrice currentPrice : ℚ) : ℚ :=
  if signal = "BUY" then currentPrice - entryPrice
  else if signal = "SELL" then entryPrice - currentPrice
  else 0

/-- Result determination of the part_009 verifier (`determineSignalResult`):
`priceChange = ((nextClose - price) / price) * 100`; BUY is WIN iff the
change is positive else LOSS, SELL is WIN iff negative else LOSS, any other
kind is NEUTRAL. -/
def p9Result (signal : String) (price nextClose : ℚ) : String :=
  let priceChange := (nextClose - price) / price * 100
  if signal = "BUY" then (if 0 < priceChange then "WIN" else "LOSS")
  else if signal = "SELL" then (if priceChange < 0 then "WIN" else "LOSS")
  else "NEUTRAL"

/-- A trade-signal message as parsed back out of the Telegram channel by
api/verify-signal.js (the verifier's only record of an emitted signal; it
carries no result field). -/
structure TgSignal where
  messageId : ℕ
  symbol : String
  price : ℚ
  signal : String
  timestamp : ℚ

/-- `signalAgeMinutes` of api/verify-signal.js:
`(now - signal.timestamp) / (1000 * 60)`. -/
def signalAgeMinutes (now : ℚ) (s : TgSignal) : ℚ :=
  (now - s.timestamp) / (1000 * 60)

/-- One iteration of the verification loop of api/verify-signal.js (lines
65-145) for one parsed signal, given the freshly fetched current price:
whenever the signal's age lies within `[checkAfterMinutes, lookbackMinutes]`
the handler recomputes the result from the current price and posts a result
message to the channel — `some (result, profitLoss)` models that write;
`none` means the signal was skipped and nothing was posted.  No stored
result is ever consulted: the loop's only guard is the age window. -/
def processSignal (checkAfterMinutes lookbackMinutes now : ℚ) (s : TgSignal)
    (currentPrice : ℚ) : Option (String × ℚ) :=
  if checkAfterMinutes ≤ signalAgeMinutes now s
      ∧ signalAgeMinutes now s ≤ lookbackMinutes then
    some (vsResult s.signal s.price currentPrice,
      vsProfitLoss s.signal s.price currentPrice)
  else none

section ListHelpers

lemma length_jsSlice {α : Type} (l : List α) (j p : ℕ) (h : j + p ≤ l.length) :
    (jsSlice l j (j + p)).length = p := by
  simp [jsSlice]
  omega

lemma jsSlice_getD (l : List ℚ) (j p t : ℕ) (ht : t < p) (h : j + p ≤ l.length) :
    (jsSlice l j (j + p)).getD t 0 = l.getD (j + t) 0 := by
  have hlen : (jsSlice l j (j + p)).length = p := length_jsSlice l j p h
  have ht2 : t < (jsSlice l j (j + p)).length := by omega
  have hjt : j + t < l.length := by omega
  rw [List.getD_eq_getElem _ _ ht2, List.getD_eq_getElem _ _ hjt]
  simp only [jsSlice, Nat.add_sub_cancel_left] at ht2 ⊢
  rw [List.getElem_take, List.getElem_drop]

lemma jsSlice_sum (l : List ℚ) (j p : ℕ) (h : j + p ≤ l.length) :
    (jsSlice l j (j + p)).sum = ∑ i ∈ Finset.range p, l.getD (j + i) 0 := by
  induction p with
  | zero => simp [jsSlice]
  | succ p ih =>
    have h' : j + p ≤ l.length := by omega
    have hsplit : jsSlice l j (j + (p + 1)) = jsSlice l j (j + p) ++ [l.getD (j + p) 0] := by
      simp only [jsSlice, Nat.add_sub_cancel_left]
      rw [List.take_succ]
      congr 1
      have hp2 : p < (l.drop j).length := by simp; omega
      rw [List.getElem?_eq_getElem hp2]
      rw [List.getElem_drop, List.getD_eq_getElem _ _ (by omega : j + p < l.length)]
      rfl
    rw [hsplit, List.sum_append, ih h', Finset.sum_range_succ]
    simp

lemma getD_mem (l : List ℚ) (t : ℕ) (d : ℚ) (h : t < l.length) : l.getD t d ∈ l := by
  rw [List.getD_eq_getElem _ _ h]
  exact List.getElem_mem h

end ListHelpers

/-- Claim C6: for an input of length n and period p ≥ 1, `sma` returns the
empty list when n < p, and otherwise a list of length n - p + 1 whose entry
j is the arithmetic mean of the right-aligned trailing window
values[j .. j+p-1]. -/
theorem sma_window_mean (values : List ℚ) (period : ℕ) (hp : 1 ≤ period) :
    (values.length < period → sma values period = [])
    ∧ (period ≤ values.length →
        (sma values period).length = values.length - period + 1
        ∧ ∀ j, j + period ≤ values.length →
            (sma values period).getD j 0
              = (∑ i ∈ Finset.range period, values.getD (j + i) 0) / period) := by
  constructor
  · intro hlt
    unfold sma
    have h0 : values.length + 1 - period = 0 := by omega
    rw [h0]
    simp
  · intro hle
    constructor
    · simp [sma]
      omega
    · intro j hj
      have hbound : j < (sma values period).length := by
        simp [sma]
        omega
      rw [List.getD_eq_getElem _ _ hbound]
      simp only [sma, List.getElem_map, List.getElem_range]
      rw [jsSlice_sum values j period (by omega)]

/-- Witness for C6 at the spec's concrete scenario: `sma([1..10], 3)` has
length 8, first element 2 and last element 9. -/
theorem sma_window_mean_witness :
    ((1 : ℕ) ≤ 3 ∧ (3 : ℕ) ≤ ([1, 2, 3, 4, 5, 6, 7, 8, 9, 10] : List ℚ).length)
    ∧ (sma [1, 2, 3, 4, 5, 6, 7, 8, 9, 10] 3).length = 8
    ∧ (sma [1, 2, 3, 4, 5, 6, 7, 8, 9, 10] 3).getD 0 0 = 2
    ∧ (sma [1, 2, 3, 4, 5, 6, 7, 8, 9, 10] 3).getD 7 0 = 9 := by
  have h := sma_window_mean [1, 2, 3, 4, 5, 6, 7, 8, 9, 10] 3 (by norm_num)
  have h2 := h.2 (by norm_num)
  refine ⟨⟨by norm_num, by norm_num⟩, by simpa using h2.1, ?_, ?_⟩
  · rw [h2.2 0 (by norm_num)]
    norm_num [Finset.sum_range_succ]
  · rw [h2.2 7 (by norm_num)]
    norm_num [Finset.sum_range_succ]

/-- Claim C9: when the input is at least as long as the period, the padded
variant `calculateSMA` is exactly `period - 1` null markers followed by
`sma`, its length equals the input length, and every defined position
agrees with the corresponding `sma` entry. -/
theorem calculateSMA_refines_sma (data : List ℚ) (period : ℕ)
    (hp : 1 ≤ period) (hlen : period ≤ data.length) :
    calculateSMA data period
      = List.replicate (period - 1) (none : Option ℚ) ++ (sma data period).map some
    ∧ (calculateSMA data period).length = data.length
    ∧ ∀ j, j < (sma data period).length →
        (calculateSMA data period).getD (period - 1 + j) none
          = some ((sma data period).getD j 0) := by
  have heq : calculateSMA data period
      = List.replicate (period - 1) (none : Option ℚ) ++ (sma data period).map some := by
    unfold calculateSMA sma
    rw [if_neg (by omega)]
  refine ⟨heq, ?_, ?_⟩
  · rw [heq]
    simp [sma]
    omega
  · intro j hj
    rw [heq, List.getD_append_right _ _ _ _ (by simp)]
    simp only [List.length_replicate, Nat.add_sub_cancel_left]
    have hj2 : j < ((sma data period).map some).length := by simpa using hj
    rw [List.getD_eq_getElem _ _ hj2, List.getElem_map,
      List.getD_eq_getElem _ _ hj]

/-- Witness for C9 at data = [1..10], period 3: output length 10, and the
first defined position (index 2) holds the first `sma` entry, 2. -/
theorem calculateSMA_refines_sma_witness :
    ((1 : ℕ) ≤ 3 ∧ (3 : ℕ) ≤ ([1, 2, 3, 4, 5, 6, 7, 8, 9, 10] : List ℚ).length)
    ∧ (calculateSMA [1, 2, 3, 4, 5, 6, 7, 8, 9, 10] 3).length = 10
    ∧ (calculateSMA [1, 2, 3, 4, 5, 6, 7, 8, 9, 10] 3).getD 2 none
        = some ((sma [1, 2, 3, 4, 5, 6, 7, 8, 9, 10] 3).getD 0 0) := by
  have h := calculateSMA_refines_sma [1, 2, 3, 4, 5, 6, 7, 8, 9, 10] 3
    (by norm_num) (by norm_num)
  refine ⟨⟨by norm_num, by norm_num⟩, by simpa using h.2.1, ?_⟩
  have h3 := h.2.2 0 (by simp [sma])
  simpa using h3

lemma scanl_getD_succ (f : ℚ → ℚ → ℚ) :
    ∀ (l : List ℚ) (b : ℚ) (i : ℕ), i < l.length →
      (List.scanl f b l).getD (i + 1) 0
        = f ((List.scanl f b l).getD i 0) (l.getD i 0) := by
  intro l
  induction l with
  | nil => intro b i hi; simp at hi
  | cons x xs ih =>
    intro b i hi
    rw [List.scanl_cons]
    cases i with
    | zero =>
      have : (List.scanl f (f b x) xs).getD 0 0 = f b x := by
        cases xs <;> simp [List.scanl]
      simp [this]
    | succ i =>
      have hi2 : i < xs.length := by simpa using hi
      have := ih (f b x) i hi2
      simpa using this

/-- Counterexample to claim C5 as stated: on the non-empty input [1, 2] with
period 21, `calculateEMA` (part_002) returns the empty list, so its output
length differs from the input length. -/
theorem calculateEMA_length_counterexample :
    (calculateEMA [1, 2] 21).length ≠ ([1, 2] : List ℚ).length := by
  norm_num [calculateEMA]

/-- Claim C5 (amended): for every non-empty input, `ema` (send-message.js)
keeps the input length, is seeded with the first value, and satisfies the
recurrence `ema[i] = values[i] * k + ema[i-1] * (1 - k)` with
`k = 2/(period+1)`; the `calculateEMA` variant (part_002) instead returns []
when the input is shorter than the period, and coincides with `ema`
otherwise. -/
theorem ema_seed_recurrence_length (values : List ℚ) (period : ℕ)
    (hne : values ≠ []) :
    (ema values period).length = values.length
    ∧ (ema values period).headI = values.headI
    ∧ (∀ i : ℕ, i + 1 < values.length →
        (ema values period).getD (i + 1) 0
          = values.getD (i + 1) 0 * (2 / ((period : ℚ) + 1))
            + (ema values period).getD i 0 * (1 - 2 / ((period : ℚ) + 1)))
    ∧ (values.length < period → calculateEMA values period = [])
    ∧ (period ≤ values.length → calculateEMA values period = ema values period) := by
  obtain ⟨v, rest, rfl⟩ := List.exists_cons_of_ne_nil hne
  refine ⟨?_, ?_, ?_, ?_, ?_⟩
  · simp [ema, List.length_scanl]
  · cases rest <;> simp [ema, List.scanl]
  · intro i hi
    have hlt : i < rest.length := by simpa using hi
    have hema : ema (v :: rest) period
        = List.scanl
            (fun prev x => x * (2 / ((period : ℚ) + 1))
              + prev * (1 - 2 / ((period : ℚ) + 1))) v rest := rfl
    rw [hema, scanl_getD_succ _ rest v i hlt, List.getD_cons_succ]
  · intro hlt
    unfold calculateEMA
    rw [if_pos hlt]
  · intro hge
    unfold calculateEMA
    rw [if_neg (by omega)]

/-- Witness for C5 at the spec's concrete scenario `ema([10, 20, 30], 2)`:
length 3, seed 10, and second entry `20 * (2/3) + 10 * (1/3) = 50/3`. -/
theorem ema_seed_recurrence_length_witness :
    ([10, 20, 30] : List ℚ) ≠ []
    ∧ (ema [10, 20, 30] 2).length = 3
    ∧ (ema [10, 20, 30] 2).headI = 10
    ∧ (ema [10, 20, 30] 2).getD 1 0 = 50 / 3 := by
  have h := ema_seed_recurrence_length [10, 20, 30] 2 (by simp)
  refine ⟨by simp, by simpa using h.1, by simpa using h.2.1, ?_⟩
  have h1 := h.2.2.1 0 (by norm_num)
  rw [h1]
  have h0 : (ema [10, 20, 30] 2).getD 0 0 = 10 := by
    norm_num [ema, List.scanl]
  rw [h0]
  norm_num

lemma scanl_convex_bounds (k m M : ℚ) (hk0 : 0 ≤ k) (hk1 : k ≤ 1) :
    ∀ (l : List ℚ) (b : ℚ), m ≤ b → b ≤ M → (∀ v ∈ l, m ≤ v ∧ v ≤ M) →
      ∀ x ∈ List.scanl (fun prev y => y * k + prev * (1 - k)) b l,
        m ≤ x ∧ x ≤ M := by
  intro l
  induction l with
  | nil =>
    intro b hmb hbM _ x hx
    simp [List.scanl] at hx
    subst hx
    exact ⟨hmb, hbM⟩
  | cons y ys ih =>
    intro b hmb hbM hmem x hx
    rw [List.scanl_cons] at hx
    rcases List.mem_cons.1 (by simpa using hx) with hx0 | hxs
    · subst hx0
      exact ⟨hmb, hbM⟩
    · have hy := hmem y (List.mem_cons_self y ys)
      have hnext_lo : m ≤ y * k + b * (1 - k) := by
        have h1 : m * k ≤ y * k := mul_le_mul_of_nonneg_right hy.1 hk0
        have h2 : m * (1 - k) ≤ b * (1 - k) :=
          mul_le_mul_of_nonneg_right hmb (by linarith)
        nlinarith
      have hnext_hi : y * k + b * (1 - k) ≤ M := by
        have h1 : y * k ≤ M * k := mul_le_mul_of_nonneg_right hy.2 hk0
        have h2 : b * (1 - k) ≤ M * (1 - k) :=
          mul_le_mul_of_nonneg_right hbM (by linarith)
        nlinarith
      exact ih (y * k + b * (1 - k)) hnext_lo hnext_hi
        (fun v hv => hmem v (List.mem_cons_of_mem y hv)) x hxs

/-- Claim C10: for period ≥ 1 the smoothing constant k = 2/(period+1) lies
in (0, 1], so every entry of `ema` is a convex combination of input values
and stays between any lower bound m and upper bound M of the input; the EMA
never overshoots the input range. -/
theorem ema_within_input_range (values : List ℚ) (period : ℕ) (m M : ℚ)
    (hp : 1 ≤ period) (hm : ∀ v ∈ values, m ≤ v) (hM : ∀ v ∈ values, v ≤ M) :
    ∀ x ∈ ema values period, m ≤ x ∧ x ≤ M := by
  intro x hx
  match values, hx with
  | v :: rest, hx =>
    have hk0 : (0 : ℚ) ≤ 2 / ((period : ℚ) + 1) := by positivity
    have hk1 : 2 / ((period : ℚ) + 1) ≤ 1 := by
      rw [div_le_one (by positivity)]
      have : (1 : ℚ) ≤ (period : ℚ) := by exact_mod_cast hp
      linarith
    exact scanl_convex_bounds _ m M hk0 hk1 rest v
      (hm v (List.mem_cons_self v rest)) (hM v (List.mem_cons_self v rest))
      (fun w hw => ⟨hm w (List.mem_cons_of_mem v hw), hM w (List.mem_cons_of_mem v hw)⟩)
      x hx

/-- Witness for C10 at values = [10, 20, 30], period 2, bounds m = 10 and
M = 30, applied to the member 10 of the output. -/
theorem ema_within_input_range_witness :
    ((1 : ℕ) ≤ 2 ∧ (10 : ℚ) ∈ ema [10, 20, 30] 2)
    ∧ (10 : ℚ) ≤ 10 ∧ (10 : ℚ) ≤ 30 := by
  have hmem : (10 : ℚ) ∈ ema [10, 20, 30] 2 := by
    norm_num [ema, List.scanl]
  have h := ema_within_input_range [10, 20, 30] 2 10 30 (by norm_num)
    (by intro v hv; fin_cases hv <;> norm_num)
    (by intro v hv; fin_cases hv <;> norm_num) 10 hmem
  exact ⟨⟨by norm_num, hmem⟩, h⟩

lemma le_foldMax (x : ℚ) (xs : List ℚ) : x ≤ foldMax x xs := by
  induction xs generalizing x with
  | nil => simp [foldMax]
  | cons y ys ih =>
    have h1 : x ≤ max x y := le_max_left x y
    have h2 : max x y ≤ foldMax (max x y) ys := ih (max x y)
    calc x ≤ max x y := h1
      _ ≤ foldMax (max x y) ys := h2

lemma foldMax_ge (a x : ℚ) (xs : List ℚ) (h : a = x ∨ a ∈ xs) :
    a ≤ foldMax x xs := by
  induction xs generalizing x with
  | nil =>
    rcases h with rfl | h
    · simp [foldMax]
    · simp at h
  | cons y ys ih =>
    show a ≤ foldMax (max x y) ys
    rcases h with rfl | h
    · exact le_trans (le_max_left a y) (le_foldMax _ ys)
    · rcases List.mem_cons.1 h with rfl | hys
      · exact le_trans (le_max_right x a) (le_foldMax _ ys)
      · exact ih (max x y) (Or.inr hys)

lemma foldMin_le_self (x : ℚ) (xs : List ℚ) : foldMin x xs ≤ x := by
  induction xs generalizing x with
  | nil => simp [foldMin]
  | cons y ys ih =>
    have h2 : foldMin (min x y) ys ≤ min x y := ih (min x y)
    calc foldMin (min x y) ys ≤ min x y := h2
      _ ≤ x := min_le_left x y

lemma foldMin_le (a x : ℚ) (xs : List ℚ) (h : a = x ∨ a ∈ xs) :
    foldMin x xs ≤ a := by
  induction xs generalizing x with
  | nil =>
    rcases h with rfl | h
    · simp [foldMin]
    · simp at h
  | cons y ys ih =>
    show foldMin (min x y) ys ≤ a
    rcases h with rfl | h
    · exact le_trans (foldMin_le_self _ ys) (min_le_left a y)
    · rcases List.mem_cons.1 h with rfl | hys
      · exact le_trans (foldMin_le_self _ ys) (min_le_right x a)
      · exact ih (min x y) (Or.inr hys)

/-- Counterexample to claim C3 as stated: on a window whose highs and lows
all coincide (`highestHigh == lowestLow`), `stoch` yields the non-numeric
marker (JS NaN from the unguarded 0/0 division), not any documented numeric
fallback value. -/
theorem stoch_degenerate_counterexample :
    stoch [5, 5, 5, 5, 5, 5, 5, 5, 5, 5, 5, 5, 5, 5]
      [5, 5, 5, 5, 5, 5, 5, 5, 5, 5, 5, 5, 5, 5]
      [5, 5, 5, 5, 5, 5, 5, 5, 5, 5, 5, 5, 5, 5] 14 = [none] := by
  norm_num [stoch, jsSlice, foldMax, foldMin, List.range_succ]

/-- Claim C3 (amended): on price data satisfying the OHLC invariant
(low ≤ close ≤ high pointwise), every `stoch` entry is either a number in
[0, 100] (when the window's highestHigh differs from its lowestLow) or the
non-numeric marker `none` (the code has no numeric fallback for the
degenerate window; the JS NaN flows onward toward the signal decision). -/
theorem stoch_entries_in_range (closes highs lows : List ℚ) (period : ℕ)
    (hp : 1 ≤ period)
    (hhl : highs.length = closes.length) (hll : lows.length = closes.length)
    (hinv : ∀ i, i < closes.length →
      lows.getD i 0 ≤ closes.getD i 0 ∧ closes.getD i 0 ≤ highs.getD i 0) :
    ∀ e ∈ stoch closes highs lows period,
      e = none ∨ ∃ x, e = some x ∧ 0 ≤ x ∧ x ≤ 100 := by
  intro e he
  unfold stoch at he
  rcases List.mem_map.1 he with ⟨j, hj, rfl⟩
  have hjlt : j < closes.length + 1 - period := List.mem_range.1 hj
  have hjp : j + period ≤ closes.length := by omega
  cases hH : jsSlice highs j (j + period) with
  | nil => simp [hH]
  | cons h0 hrest =>
    cases hL : jsSlice lows j (j + period) with
    | nil => simp [hH, hL]
    | cons l0 lrest =>
      dsimp only
      by_cases hdeg : foldMax h0 hrest - foldMin l0 lrest = 0
      · left
        rw [if_pos hdeg]
      · rw [if_neg hdeg]
        right
        set i := j + (period - 1) with hidef
        have hip : i < closes.length := by omega
        have hiarith : j + period - 1 = i := by omega
        have hlowmem : lows.getD i 0 ∈ jsSlice lows j (j + period) := by
          have := jsSlice_getD lows j period (period - 1) (by omega) (by omega)
          rw [← this]
          exact getD_mem _ _ _ (by rw [length_jsSlice lows j period (by omega)]; omega)
        have hhighmem : highs.getD i 0 ∈ jsSlice highs j (j + period) := by
          have := jsSlice_getD highs j period (period - 1) (by omega) (by omega)
          rw [← this]
          exact getD_mem _ _ _ (by rw [length_jsSlice highs j period (by omega)]; omega)
        rw [hL] at hlowmem
        rw [hH] at hhighmem
        have hll2 : foldMin l0 lrest ≤ lows.getD i 0 :=
          foldMin_le _ _ _ (by simpa using List.mem_cons.1 hlowmem)
        have hhh2 : highs.getD i 0 ≤ foldMax h0 hrest :=
          foldMax_ge _ _ _ (by simpa using List.mem_cons.1 hhighmem)
        have hci := hinv i hip
        have hcl : foldMin l0 lrest ≤ closes.getD i 0 := le_trans hll2 hci.1
        have hch : closes.getD i 0 ≤ foldMax h0 hrest := le_trans hci.2 hhh2
        have hpos : 0 < foldMax h0 hrest - foldMin l0 lrest := by
          rcases lt_or_eq_of_le (le_trans hcl hch) with h | h
          · linarith
          · exact absurd (by linarith) hdeg
        refine ⟨_, by rw [hiarith], ?_, ?_⟩
        · apply mul_nonneg _ (by norm_num)
          apply div_nonneg _ (le_of_lt hpos)
          linarith
        · have hq : (closes.getD i 0 - foldMin l0 lrest)
              / (foldMax h0 hrest - foldMin l0 lrest) ≤ 1 := by
            rw [div_le_one hpos]
            linarith
          nlinarith [hq, hpos]

/-- Witness for C3 at closes = [3], highs = [4], lows = [2], period 1: the
single entry is `some 50` and lies in [0, 100]. -/
theorem stoch_entries_in_range_witness :
    stoch [3] [4] [2] 1 = [some 50]
    ∧ ((some (50 : ℚ) = none)
        ∨ ∃ x, some (50 : ℚ) = some x ∧ 0 ≤ x ∧ x ≤ 100) := by
  have heval : stoch [3] [4] [2] 1 = [some 50] := by
    norm_num [stoch, jsSlice, foldMax, foldMin, List.range_succ]
  refine ⟨heval, ?_⟩
  apply stoch_entries_in_range [3] [4] [2] 1 (by norm_num) (by simp) (by simp)
    (by
      intro i hi
      have h0 : i = 0 := by simp at hi; omega
      subst h0
      norm_num)
  rw [heval]
  simp

lemma buy_sell_state_exclusive (s : IndicatorState) :
    (buyCondition s && sellCondition s) = false := by
  unfold buyCondition sellCondition
  cases ho : s.currentOpen with
  | none => simp [jsLt, jsGt]
  | some o =>
    cases hh : s.hl2 with
    | none => simp [jsLt, jsGt]
    | some h =>
      by_cases hoh : o < h
      · have : jsGt (some o) (some h) = false := by
          simp [jsGt]
          linarith
        simp [this]
      · have : jsLt (some o) (some h) = false := by
          simp [jsLt, hoh]
        simp [this]

/-- Claim C8: for every input price series, the BUY condition and the SELL
condition of the EMA-channel + Stochastic strategy are never both true in
the same evaluation (BUY requires the open below the channel midpoint, SELL
requires it above; with a NaN/undefined midpoint both comparisons are
false). -/
theorem buy_sell_mutually_exclusive (opens highs lows closes : List ℚ) :
    (buyCondition (indicatorState opens highs lows closes)
      && sellCondition (indicatorState opens highs lows closes)) = false :=
  buy_sell_state_exclusive (indicatorState opens highs lows closes)

/-- Counterexample to claim C2 as stated: on a 20-bar series the handler
returns a 400 error response, not a HOLD signal. -/
theorem insufficient_data_counterexample :
    handleSendMessage (List.replicate 20 ⟨1, 1, 1, 1⟩)
      = Response.errorResponse 400 "Not enough time series data to calculate indicators."
    ∧ handleSendMessage (List.replicate 20 ⟨1, 1, 1, 1⟩)
        ≠ Response.successResponse "HOLD" := by
  have h1 : handleSendMessage (List.replicate 20 ⟨1, 1, 1, 1⟩)
      = Response.errorResponse 400 "Not enough time series data to calculate indicators." := by
    norm_num [handleSendMessage]
  refine ⟨h1, ?_⟩
  rw [h1]
  decide

/-- Claim C2 (amended): with fewer than 21 bars (21 being the longest
lookback of the configured strategy, the 21-period EMA), the handler returns
a 400 error response stating there is not enough data; it does not throw and
the strategy conditions are never evaluated over the truncated series. -/
theorem handle_insufficient_data (values : List Bar) (h : values.length < 21) :
    handleSendMessage values
      = Response.errorResponse 400 "Not enough time series data to calculate indicators." := by
  unfold handleSendMessage
  rw [if_pos h]

/-- Witness for C2 at a concrete 19-bar series. -/
theorem handle_insufficient_data_witness :
    (List.replicate 19 (⟨2, 3, 1, 2⟩ : Bar)).length < 21
    ∧ handleSendMessage (List.replicate 19 ⟨2, 3, 1, 2⟩)
        = Response.errorResponse 400 "Not enough time series data to calculate indicators." :=
  ⟨by simp, handle_insufficient_data _ (by simp)⟩

/-- Counterexample to claim C1 as stated: at the spec's own tie scenario (a
SELL with entryPrice = 100 and next close = 100) the verify-signal.js
handler leaves the result "NEUTRAL"; the tie does not resolve to LOSS
there. -/
theorem vs_tie_counterexample :
    vsResult "SELL" 100 100 = "NEUTRAL" ∧ vsResult "SELL" 100 100 ≠ "LOSS" := by
  constructor <;> decide

/-- Claim C1 (amended): in the part_010 verifier, pnl = exit − entry for BUY
and entry − exit for SELL, and the result is WIN exactly when pnl > 0, LOSS
exactly when pnl ≤ 0 (so a tie resolves to LOSS); the verify-signal.js
handler, by contrast, leaves a tie (exit = entry) as "NEUTRAL". -/
theorem pnl_result_determination (s : String) (entry exitP : ℚ) :
    (0 < runPnl s entry exitP ↔ runResult s entry exitP = "WIN")
    ∧ (runPnl s entry exitP ≤ 0 ↔ runResult s entry exitP = "LOSS")
    ∧ runPnl "BUY" entry exitP = exitP - entry
    ∧ runPnl "SELL" entry exitP = entry - exitP
    ∧ vsResult "BUY" entry entry = "NEUTRAL"
    ∧ vsResult "SELL" entry entry = "NEUTRAL" := by
  refine ⟨?_, ?_, by simp [runPnl], by simp [runPnl], ?_, ?_⟩
  · unfold runResult
    by_cases h : 0 < runPnl s entry exitP <;> simp [h]
  · unfold runResult
    by_cases h : 0 < runPnl s entry exitP
    · rw [if_pos h]
      constructor
      · intro hle
        linarith
      · intro hstr
        exact absurd hstr (by decide)
    · rw [if_neg h]
      constructor
      · intro _
        rfl
      · intro _
        exact not_lt.mp h
  · simp [vsResult, lt_irrefl]
  · simp [vsResult, lt_irrefl]

/-- Witness for C1: a BUY at entry 100 closing at 105 has pnl 5 > 0 and is a
WIN in the part_010 verifier. -/
theorem pnl_result_determination_witness :
    (0 : ℚ) < runPnl "BUY" 100 105 ∧ runResult "BUY" 100 105 = "WIN" :=
  ⟨by norm_num [runPnl],
    (pnl_result_determination "BUY" 100 105).1.mp (by norm_num [runPnl])⟩

/-- Counterexample to claim C7 as stated: a record whose signal kind is
"HOLD" (neither BUY nor SELL) is scored "NEUTRAL", not "INVALID", by the
part_009 verifier. -/
theorem invalid_counterexample :
    p9Result "HOLD" 100 105 = "NEUTRAL" ∧ p9Result "HOLD" 100 105 ≠ "INVALID" := by
  constructor <;> decide

/-- Claim C7 (amended): a SignalRecord whose signalKind is neither BUY nor
SELL ends with result "NEUTRAL" (the code has no INVALID state) in both
verifiers; moreover both verifiers fetch the next-candle price before
branching on the kind, so price data is consulted regardless (the functions
take that price as an input). -/
theorem non_buy_sell_neutral (s : String) (entry exitP : ℚ)
    (h1 : s ≠ "BUY") (h2 : s ≠ "SELL") :
    p9Result s entry exitP = "NEUTRAL" ∧ vsResult s entry exitP = "NEUTRAL" := by
  constructor
  · simp [p9Result, h1, h2]
  · simp [vsResult, h1, h2]

/-- Witness for C7 at the kind "HOLD". -/
theorem non_buy_sell_neutral_witness :
    (("HOLD" : String) ≠ "BUY" ∧ ("HOLD" : String) ≠ "SELL")
    ∧ p9Result "HOLD" 100 105 = "NEUTRAL"
    ∧ vsResult "HOLD" 100 105 = "NEUTRAL" :=
  ⟨⟨by decide, by decide⟩,
    non_buy_sell_neutral "HOLD" 100 105 (by decide) (by decide)⟩

/-- Claim C4 (code-bug evidence): the verify-signal.js loop keeps no
terminal state — the same BUY signal (entry 100, emitted at timestamp 0) is
re-processed on a second run 30 minutes later because its age still lies in
the default [15, 60]-minute window, and with the price now at 95 instead of
105 the posted result flips from WIN (pnl 5) to LOSS (pnl −5); each `some`
is a result message posted to the channel, so a second write occurs. -/
theorem verify_not_idempotent :
    processSignal 15 60 1200000 ⟨1, "EUR/USD", 100, "BUY", 0⟩ 105
      = some ("WIN", 5)
    ∧ processSignal 15 60 1800000 ⟨1, "EUR/USD", 100, "BUY", 0⟩ 95
      = some ("LOSS", -5) := by
  constructor <;>
    norm_num [processSignal, signalAgeMinutes, vsResult, vsProfitLoss]

end VTS
